import Mathlib

/-!
Verification development for the compiler core of `mini_compiler_gui.py`:
a regex-based tokenizer (`lexical_analyzer`), a recursive-descent grammar
validator (`syntax_analyzer` over the `SimpleParser` class) and a direct
token-walking interpreter (`evaluate`).  The GUI shell around the core is
not modelled.  All definitions are shallow embeddings of the Python
source; machine strings are Lean `String`s, Python's arbitrary-precision
integers are `Int`, raised exceptions are `Except` errors.
-/

namespace MiniC

/-- The token kinds of `TOKEN_TYPES`, in the priority (insertion) order of
the Python dict that builds `token_regex`. -/
inductive TokenType where
  | INT_KEYWORD
  | RETURN_KEYWORD
  | IDENTIFIER
  | STRING_LITERAL
  | NUMBER
  | PLUS
  | MINUS
  | EQUALS
  | LPAREN
  | RPAREN
  | LBRACE
  | RBRACE
  | SEMICOLON
  | COMMA
  | WHITESPACE
  | UNKNOWN
deriving DecidableEq, Repr

/-- A token is a `(token_type, token_value)` pair, as appended by
`lexical_analyzer`. -/
abbrev Token := TokenType × String

/-- Python's `\w` on the ASCII source alphabet: letters, digits, `_`. -/
def isWordChar (c : Char) : Bool := c.isAlpha || c.isDigit || c == '_'

/-- First character class `[a-zA-Z_]` of the IDENTIFIER pattern. -/
def isIdentStart (c : Char) : Bool := c.isAlpha || c == '_'

/-- Python's `\s` on the ASCII source alphabet. -/
def isSpaceChar (c : Char) : Bool :=
  c == ' ' || c == '\t' || c == '\n' || c == '\r' || c == '\x0b' || c == '\x0c'

/-- The word-boundary test `\b` placed after a match: the next character
(if any) must not be a word character. -/
def boundaryAfter (cs : List Char) : Bool :=
  match cs with
  | [] => true
  | c :: _ => !isWordChar c

/-- Does the first character of `cs` satisfy `p`? -/
def headIs (p : Char → Bool) (cs : List Char) : Bool :=
  match cs with
  | [] => false
  | c :: _ => p c

/-- Is the first character of `cs` equal to `a`? -/
def headEq (a : Char) (cs : List Char) : Bool :=
  match cs with
  | [] => false
  | c :: _ => c == a

/-- One position of Python's `re.finditer(token_regex, code)`: at the
current position (`cs` is the remaining input, `prevWord` says whether the
character just before it is a word character, which decides the leading
`\b` of the keyword, identifier and number patterns), the alternatives of
`TOKEN_TYPES` are tried in order and the first that matches wins; the
result is its group name and match length.  The greedy sub-patterns
(identifier/number/whitespace runs, the `[^"]*` of a string literal)
match maximally; a number run whose following character is a word
character fails its trailing `\b` outright (backtracking inside the run
cannot restore the boundary).  The catch-all `.` matches any remaining
character, since `'\n'` is already taken by WHITESPACE. -/
def matchAt (prevWord : Bool) (cs : List Char) : TokenType × Nat :=
  if prevWord = false ∧ cs.take 3 = ['i', 'n', 't'] ∧ boundaryAfter (cs.drop 3) = true then
    (TokenType.INT_KEYWORD, 3)
  else if prevWord = false ∧ cs.take 6 = ['r', 'e', 't', 'u', 'r', 'n'] ∧
      boundaryAfter (cs.drop 6) = true then
    (TokenType.RETURN_KEYWORD, 6)
  else if prevWord = false ∧ headIs isIdentStart cs = true then
    (TokenType.IDENTIFIER, (cs.takeWhile isWordChar).length)
  else if headEq '"' cs = true ∧
      (cs.tail.takeWhile (fun c => !(c == '"'))).length < cs.tail.length then
    (TokenType.STRING_LITERAL, 2 + (cs.tail.takeWhile (fun c => !(c == '"'))).length)
  else if prevWord = false ∧ headIs Char.isDigit cs = true ∧
      boundaryAfter (cs.drop (cs.takeWhile Char.isDigit).length) = true then
    (TokenType.NUMBER, (cs.takeWhile Char.isDigit).length)
  else if headEq '+' cs = true then (TokenType.PLUS, 1)
  else if headEq '-' cs = true then (TokenType.MINUS, 1)
  else if headEq '=' cs = true then (TokenType.EQUALS, 1)
  else if headEq '(' cs = true then (TokenType.LPAREN, 1)
  else if headEq ')' cs = true then (TokenType.RPAREN, 1)
  else if headEq '\x7b' cs = true then (TokenType.LBRACE, 1)
  else if headEq '\x7d' cs = true then (TokenType.RBRACE, 1)
  else if headEq ';' cs = true then (TokenType.SEMICOLON, 1)
  else if headEq ',' cs = true then (TokenType.COMMA, 1)
  else if headIs isSpaceChar cs = true then
    (TokenType.WHITESPACE, (cs.takeWhile isSpaceChar).length)
  else (TokenType.UNKNOWN, 1)

/-- The `for match in re.finditer(...)` loop of `lexical_analyzer`:
classify the match at the current position, skip WHITESPACE matches,
record UNKNOWN matches in the error flag without appending them, and
append every other match as a `(token_type, token_value)` pair.  Every
alternative of `matchAt` has a positive match length, so the scan always
advances; `max 1` merely makes that visible to the termination checker. -/
def scanAux (prevWord : Bool) (cs : List Char) : List Token × Bool :=
  match cs with
  | [] => ([], false)
  | c :: rest =>
    let m := matchAt prevWord (c :: rest)
    let len := max 1 m.2
    let lexeme := (c :: rest).take len
    let next := scanAux (isWordChar (lexeme.getLastD c)) ((c :: rest).drop len)
    if m.1 = TokenType.WHITESPACE then next
    else if m.1 = TokenType.UNKNOWN then (next.1, true)
    else ((m.1, String.mk lexeme) :: next.1, next.2)
termination_by cs.length
decreasing_by simp <;> omega

/-- FUNCTION 1 of the source: break `code` into tokens and report whether
any character was classified by the catch-all pattern. -/
def lexical_analyzer (code : String) : List Token × Bool :=
  scanAux false code.data


/-- The parsing-state class of the source: the token list and a single
read cursor.  The tokens field is only ever read; `advance` and `expect`
produce a state with the same `tokens` and a moved cursor. -/
structure SimpleParser where
  tokens : List Token
  current_token_index : Nat
deriving DecidableEq, Repr

/-- `SimpleParser.get_current_token_type`: the current token's type, or
`none` when the cursor is at or past the end. -/
def get_current_token_type (p : SimpleParser) : Option TokenType :=
  (p.tokens[p.current_token_index]?).map (fun t => t.1)

/-- `SimpleParser.advance`: move to the next token. -/
def advance (p : SimpleParser) : SimpleParser :=
  { p with current_token_index := p.current_token_index + 1 }

/-- `SimpleParser.expect`: consume the current token if its type matches,
else raise `SyntaxError` (modelled as `Except.error`). -/
def expect (p : SimpleParser) (expected_type : TokenType) : Except String SimpleParser :=
  if get_current_token_type p = some expected_type then Except.ok (advance p)
  else Except.error "Expected token type mismatch"

@[simp] theorem advance_tokens (p : SimpleParser) : (advance p).tokens = p.tokens := rfl

@[simp] theorem advance_index (p : SimpleParser) :
    (advance p).current_token_index = p.current_token_index + 1 := rfl

theorem cur_some_lt {p : SimpleParser} {t : TokenType}
    (h : get_current_token_type p = some t) :
    p.current_token_index < p.tokens.length := by
  by_contra hlt
  unfold get_current_token_type at h
  rw [List.getElem?_eq_none (by omega)] at h
  simp at h

theorem cur_none_iff {p : SimpleParser} :
    get_current_token_type p = none ↔ p.tokens.length ≤ p.current_token_index := by
  unfold get_current_token_type
  constructor
  · intro h
    by_contra hlt
    rw [List.getElem?_eq_getElem (by omega)] at h
    simp at h
  · intro h
    rw [List.getElem?_eq_none h]
    rfl

theorem expect_ok {p : SimpleParser} {t : TokenType} {q : SimpleParser}
    (h : expect p t = Except.ok q) :
    q.tokens = p.tokens ∧ q.current_token_index = p.current_token_index + 1 ∧
      p.current_token_index < p.tokens.length := by
  unfold expect at h
  split at h
  · rename_i hc
    cases h
    exact ⟨rfl, rfl, cur_some_lt hc⟩
  · cases h

/-- `SimpleParser.parse_term`: a single NUMBER, IDENTIFIER or
STRING_LITERAL token. -/
def parse_term (p : SimpleParser) : Except String SimpleParser :=
  match get_current_token_type p with
  | some TokenType.NUMBER => expect p TokenType.NUMBER
  | some TokenType.IDENTIFIER => expect p TokenType.IDENTIFIER
  | some TokenType.STRING_LITERAL => expect p TokenType.STRING_LITERAL
  | _ => Except.error "Expected number or identifier"

theorem parse_term_ok {p q : SimpleParser} (h : parse_term p = Except.ok q) :
    q.tokens = p.tokens ∧ q.current_token_index = p.current_token_index + 1 ∧
      p.current_token_index < p.tokens.length := by
  unfold parse_term at h
  split at h <;> first
    | exact expect_ok h
    | cases h

/-- The `while` loop of `SimpleParser.parse_expression`: as long as the
current token is PLUS or MINUS, consume the operator and parse the next
term. -/
def exprLoop (p : SimpleParser) : Except String SimpleParser :=
  if get_current_token_type p = some TokenType.PLUS ∨
      get_current_token_type p = some TokenType.MINUS then
    match h2 : parse_term (advance p) with
    | Except.error e => Except.error e
    | Except.ok q => exprLoop q
  else Except.ok p
termination_by p.tokens.length - p.current_token_index
decreasing_by
  rename_i hcond
  obtain ⟨ht, hi, hlt⟩ := parse_term_ok h2
  simp only [advance_tokens, advance_index] at ht hi hlt
  rw [ht]
  omega

/-- `SimpleParser.parse_expression`: a term followed by the operator
loop. -/
def parse_expression (p : SimpleParser) : Except String SimpleParser :=
  match parse_term p with
  | Except.error e => Except.error e
  | Except.ok q => exprLoop q

theorem exprLoop_ok {p q : SimpleParser} (h : exprLoop p = Except.ok q) :
    q.tokens = p.tokens ∧ p.current_token_index ≤ q.current_token_index := by
  induction p using exprLoop.induct with
  | case1 p hcond e herr =>
    rw [exprLoop, if_pos hcond, herr] at h
    cases h
  | case2 p hcond r hok ih =>
    rw [exprLoop, if_pos hcond, hok] at h
    obtain ⟨ht, hi, hlt⟩ := parse_term_ok hok
    obtain ⟨ht2, hi2⟩ := ih h
    simp only [advance_tokens, advance_index] at ht hi
    exact ⟨by rw [ht2, ht], by omega⟩
  | case3 p hcond =>
    rw [exprLoop, if_neg hcond] at h
    cases h
    exact ⟨rfl, le_refl _⟩

theorem parse_expression_ok {p q : SimpleParser} (h : parse_expression p = Except.ok q) :
    q.tokens = p.tokens ∧ p.current_token_index < q.current_token_index := by
  unfold parse_expression at h
  split at h
  · cases h
  · rename_i r hr
    obtain ⟨ht, hi, hlt⟩ := parse_term_ok hr
    obtain ⟨ht2, hi2⟩ := exprLoop_ok h
    exact ⟨by rw [ht2, ht], by omega⟩

/-- The `while` loop of `SimpleParser.parse_arguments`: as long as the
current token is COMMA, consume it and parse another expression. -/
def argsLoop (p : SimpleParser) : Except String SimpleParser :=
  if get_current_token_type p = some TokenType.COMMA then
    match h2 : expect p TokenType.COMMA with
    | Except.error e => Except.error e
    | Except.ok q =>
      match h3 : parse_expression q with
      | Except.error e => Except.error e
      | Except.ok r => argsLoop r
  else Except.ok p
termination_by p.tokens.length - p.current_token_index
decreasing_by
  obtain ⟨ht1, hi1, hlt1⟩ := expect_ok h2
  obtain ⟨ht2, hi2⟩ := parse_expression_ok h3
  rw [ht2, ht1]
  omega

/-- `SimpleParser.parse_arguments`: empty when the current token is
RPAREN, else one expression followed by the comma loop. -/
def parse_arguments (p : SimpleParser) : Except String SimpleParser :=
  if get_current_token_type p = some TokenType.RPAREN then Except.ok p
  else
    match parse_expression p with
    | Except.error e => Except.error e
    | Except.ok q => argsLoop q

theorem argsLoop_ok {p q : SimpleParser} (h : argsLoop p = Except.ok q) :
    q.tokens = p.tokens ∧ p.current_token_index ≤ q.current_token_index := by
  induction p using argsLoop.induct with
  | case1 p hcond e herr =>
    rw [argsLoop, if_pos hcond, herr] at h
    cases h
  | case2 p hcond r hok e herr =>
    rw [argsLoop, if_pos hcond, hok] at h
    split at h
    · rename_i e1 h2
      cases h2
    · rename_i r1 h2
      cases h2
      split at h
      · cases h
      · rename_i r2 h3
        rw [herr] at h3
        cases h3
  | case3 p hcond r hok s hok2 ih =>
    rw [argsLoop, if_pos hcond, hok] at h
    split at h
    · rename_i e1 h2
      cases h2
    · rename_i r1 h2
      cases h2
      split at h
      · rename_i e1 h3
        rw [hok2] at h3
        cases h3
      · rename_i r2 h3
        rw [hok2] at h3
        cases h3
        obtain ⟨ht1, hi1, hlt1⟩ := expect_ok hok
        obtain ⟨ht2, hi2⟩ := parse_expression_ok hok2
        obtain ⟨ht3, hi3⟩ := ih h
        exact ⟨by rw [ht3, ht2, ht1], by omega⟩
  | case4 p hcond =>
    rw [argsLoop, if_neg hcond] at h
    cases h
    exact ⟨rfl, le_refl _⟩

theorem parse_arguments_ok {p q : SimpleParser} (h : parse_arguments p = Except.ok q) :
    q.tokens = p.tokens ∧ p.current_token_index ≤ q.current_token_index := by
  unfold parse_arguments at h
  split at h
  · cases h
    exact ⟨rfl, le_refl _⟩
  · split at h
    · cases h
    · rename_i r hr
      obtain ⟨ht1, hi1⟩ := parse_expression_ok hr
      obtain ⟨ht2, hi2⟩ := argsLoop_ok h
      exact ⟨by rw [ht2, ht1], by omega⟩

/-- `SimpleParser.parse_statement`: dispatch on the current token type;
variable declaration, return statement, and identifier-led function call
or assignment; anything else raises `SyntaxError`. -/
def parse_statement (p : SimpleParser) : Except String SimpleParser :=
  match get_current_token_type p with
  | some TokenType.INT_KEYWORD =>
    (match expect (advance p) TokenType.IDENTIFIER with
     | Except.error e => Except.error e
     | Except.ok q =>
       match (if get_current_token_type q = some TokenType.EQUALS
              then parse_expression (advance q) else Except.ok q) with
       | Except.error e => Except.error e
       | Except.ok r => expect r TokenType.SEMICOLON)
  | some TokenType.RETURN_KEYWORD =>
    (match (if get_current_token_type (advance p) = some TokenType.SEMICOLON
            then Except.ok (advance p) else parse_expression (advance p)) with
     | Except.error e => Except.error e
     | Except.ok q => expect q TokenType.SEMICOLON)
  | some TokenType.IDENTIFIER =>
    (match get_current_token_type (advance p) with
     | some TokenType.LPAREN =>
       (match parse_arguments (advance (advance p)) with
        | Except.error e => Except.error e
        | Except.ok q =>
          match expect q TokenType.RPAREN with
          | Except.error e => Except.error e
          | Except.ok r => expect r TokenType.SEMICOLON)
     | some TokenType.EQUALS =>
       (match parse_expression (advance (advance p)) with
        | Except.error e => Except.error e
        | Except.ok q => expect q TokenType.SEMICOLON)
     | _ => Except.error "Expected LPAREN or EQUALS after identifier")
  | _ => Except.error "Unexpected statement"

theorem parse_statement_ok {p q : SimpleParser} (h : parse_statement p = Except.ok q) :
    q.tokens = p.tokens ∧ p.current_token_index < q.current_token_index := by
  unfold parse_statement at h
  split at h
  · -- INT_KEYWORD
    split at h
    · cases h
    · rename_i q1 hq1
      obtain ⟨ht1, hi1, _⟩ := expect_ok hq1
      split at h
      · cases h
      · rename_i r hr
        obtain ⟨ht2, hi2, _⟩ := expect_ok h
        split at hr
        · obtain ⟨ht3, hi3⟩ := parse_expression_ok hr
          simp only [advance_tokens, advance_index] at ht1 ht3 hi1 hi3
          refine ⟨by rw [ht2, ht3, ht1], by omega⟩
        · cases hr
          simp only [advance_tokens, advance_index] at ht1 hi1
          exact ⟨by rw [ht2, ht1], by omega⟩
  · -- RETURN_KEYWORD
    split at h
    · cases h
    · rename_i q1 hq1
      obtain ⟨ht2, hi2, _⟩ := expect_ok h
      split at hq1
      · cases hq1
        simp only [advance_tokens, advance_index] at ht2 hi2
        exact ⟨by rw [ht2], by omega⟩
      · obtain ⟨ht3, hi3⟩ := parse_expression_ok hq1
        simp only [advance_tokens, advance_index] at ht3 hi3
        exact ⟨by rw [ht2, ht3], by omega⟩
  · -- IDENTIFIER
    split at h
    · -- LPAREN: call
      split at h
      · cases h
      · rename_i q1 hq1
        obtain ⟨ht1, hi1⟩ := parse_arguments_ok hq1
        split at h
        · cases h
        · rename_i r hr
          obtain ⟨ht2, hi2, _⟩ := expect_ok hr
          obtain ⟨ht3, hi3, _⟩ := expect_ok h
          simp only [advance_tokens, advance_index] at ht1 hi1
          exact ⟨by rw [ht3, ht2, ht1], by omega⟩
    · -- EQUALS: assignment
      split at h
      · cases h
      · rename_i q1 hq1
        obtain ⟨ht1, hi1⟩ := parse_expression_ok hq1
        obtain ⟨ht2, hi2, _⟩ := expect_ok h
        simp only [advance_tokens, advance_index] at ht1 hi1
        exact ⟨by rw [ht2, ht1], by omega⟩
    · cases h
  · cases h

/-- The statement loop of `syntax_analyzer`: parse statements until the
current token is RBRACE or the end of the sequence. -/
def stmtLoop (p : SimpleParser) : Except String SimpleParser :=
  if get_current_token_type p ≠ some TokenType.RBRACE ∧ get_current_token_type p ≠ none then
    match h2 : parse_statement p with
    | Except.error e => Except.error e
    | Except.ok q => stmtLoop q
  else Except.ok p
termination_by p.tokens.length - p.current_token_index
decreasing_by
  rename_i hcond
  obtain ⟨ht, hi⟩ := parse_statement_ok h2
  have hlt : p.current_token_index < p.tokens.length := by
    rcases hx : get_current_token_type p with _ | t
    · exact absurd hx hcond.2
    · exact cur_some_lt hx
  rw [ht]
  omega

theorem stmtLoop_ok {p q : SimpleParser} (h : stmtLoop p = Except.ok q) :
    q.tokens = p.tokens ∧ p.current_token_index ≤ q.current_token_index := by
  induction p using stmtLoop.induct with
  | case1 p hcond e herr =>
    rw [stmtLoop, if_pos hcond, herr] at h
    cases h
  | case2 p hcond r hok ih =>
    rw [stmtLoop, if_pos hcond, hok] at h
    obtain ⟨ht, hi⟩ := parse_statement_ok hok
    obtain ⟨ht2, hi2⟩ := ih h
    exact ⟨by rw [ht2, ht], by omega⟩
  | case3 p hcond =>
    rw [stmtLoop, if_neg hcond] at h
    cases h
    exact ⟨rfl, le_refl _⟩

/-- The `try` block of `syntax_analyzer`: expect the fixed
`int IDENT ( ) {` program header, run the statement loop, and expect the
closing brace. -/
def parseProgramCore (p : SimpleParser) : Except String SimpleParser :=
  match expect p TokenType.INT_KEYWORD with
  | Except.error e => Except.error e
  | Except.ok a =>
    match expect a TokenType.IDENTIFIER with
    | Except.error e => Except.error e
    | Except.ok b =>
      match expect b TokenType.LPAREN with
      | Except.error e => Except.error e
      | Except.ok c =>
        match expect c TokenType.RPAREN with
        | Except.error e => Except.error e
        | Except.ok d =>
          match expect d TokenType.LBRACE with
          | Except.error e => Except.error e
          | Except.ok f =>
            match stmtLoop f with
            | Except.error e => Except.error e
            | Except.ok g => expect g TokenType.RBRACE

/-- The whole `try` block of `syntax_analyzer` including its final
trailing-token check: after the closing brace the current token must be
`none`, else `SyntaxError("Unexpected tokens at end of file.")`. -/
def parseProgram (tokens : List Token) : Except String SimpleParser :=
  match parseProgramCore (SimpleParser.mk tokens 0) with
  | Except.error e => Except.error e
  | Except.ok g =>
    if get_current_token_type g = none then Except.ok g
    else Except.error "Unexpected tokens at end of file."

/-- FUNCTION 2 of the source: run the recursive-descent parse and catch
any `SyntaxError`, turning it into the boolean verdict. -/
def syntax_analyzer (tokens : List Token) : Bool :=
  match parseProgram tokens with
  | Except.ok _ => true
  | Except.error _ => false

theorem parseProgramCore_ok {p q : SimpleParser} (h : parseProgramCore p = Except.ok q) :
    q.tokens = p.tokens ∧ q.current_token_index ≤ q.tokens.length := by
  unfold parseProgramCore at h
  split at h
  · cases h
  · rename_i a ha
    split at h
    · cases h
    · rename_i b hb
      split at h
      · cases h
      · rename_i c hc
        split at h
        · cases h
        · rename_i d hd
          split at h
          · cases h
          · rename_i f hf
            split at h
            · cases h
            · rename_i g hg
              obtain ⟨ht1, _, _⟩ := expect_ok ha
              obtain ⟨ht2, _, _⟩ := expect_ok hb
              obtain ⟨ht3, _, _⟩ := expect_ok hc
              obtain ⟨ht4, _, _⟩ := expect_ok hd
              obtain ⟨ht5, _, _⟩ := expect_ok hf
              obtain ⟨ht6, _⟩ := stmtLoop_ok hg
              obtain ⟨ht7, hi7, hlt7⟩ := expect_ok h
              constructor
              · rw [ht7, ht6, ht5, ht4, ht3, ht2, ht1]
              · rw [ht7]
                omega

/-- A dynamically typed Python value stored in the `symbols` dict or
produced by `eval_expression`: an integer or a string. -/
inductive Value where
  | intV (n : Int)
  | strV (s : String)
deriving DecidableEq, Repr

/-- The host exceptions `evaluate` can raise: `IndexError` from an
out-of-range `tokens[k]`, `TypeError` from `+`/`-` on incompatible
operand types, and `ValueError` from `int()` on a non-numeric string or
the explicit `raise ValueError("Bad expression")` in `get_value`. -/
inductive EvalError where
  | indexError
  | typeError
  | valueError
deriving DecidableEq, Repr

/-- Python's `str(value)` for the two value shapes that occur. -/
def strOf (v : Value) : String :=
  match v with
  | Value.intV n => toString n
  | Value.strV s => s

/-- Python's `tval.strip('"')`: remove every leading and trailing double
quote. -/
def pyStrip (s : String) : String :=
  String.mk (((s.data.dropWhile (fun c => c == '"')).reverse.dropWhile
    (fun c => c == '"')).reverse)

/-- The `symbols` dict: `symbols[k] = v`, replacing in place when the key
exists (Python dicts keep insertion order) and appending otherwise. -/
def dictSet (m : List (String × Value)) (k : String) (v : Value) : List (String × Value) :=
  match m with
  | [] => [(k, v)]
  | (k1, v1) :: rest => if k1 = k then (k1, v) :: rest else (k1, v1) :: dictSet rest k v

/-- The `symbols.get(k, dflt)` lookup. -/
def dictGet (m : List (String × Value)) (k : String) (dflt : Value) : Value :=
  match m with
  | [] => dflt
  | (k1, v1) :: rest => if k1 = k then v1 else dictGet rest k dflt

/-- Python's `value + right` for the value shapes that occur: integer
addition, string concatenation, and a `TypeError` for a string mixed with
an integer. -/
def pyAdd (a b : Value) : Except EvalError Value :=
  match a, b with
  | Value.intV x, Value.intV y => Except.ok (Value.intV (x + y))
  | Value.strV x, Value.strV y => Except.ok (Value.strV (x ++ y))
  | _, _ => Except.error EvalError.typeError

/-- Python's `value - right`: integer subtraction; any string operand is a
`TypeError`. -/
def pySub (a b : Value) : Except EvalError Value :=
  match a, b with
  | Value.intV x, Value.intV y => Except.ok (Value.intV (x - y))
  | _, _ => Except.error EvalError.typeError

/-- Python's `int(tval)` on the lexemes that occur here: a non-empty
all-digit string denotes its decimal value, anything else raises
`ValueError`.  (Python's `int()` also accepts signs and surrounding
whitespace, but every NUMBER lexeme of the tokenizer is a bare digit
run, on which the two agree.) -/
def pyInt (s : String) : Except EvalError Int :=
  if s.data ≠ [] ∧ ∀ c ∈ s.data, c.isDigit then
    Except.ok (Int.ofNat (s.data.foldl (fun n c => n * 10 + (c.toNat - '0'.toNat)) 0))
  else Except.error EvalError.valueError

/-- `get_value` inside `eval_expression`: a NUMBER token yields `int(tval)`
(`ValueError` on a non-digit lexeme, which no NUMBER token of the lexer
has), a STRING_LITERAL yields its lexeme with the quotes stripped, an
IDENTIFIER yields `symbols.get(tval, 0)`, and anything else raises
`ValueError("Bad expression")`. -/
def get_value (symbols : List (String × Value)) (tok : Token) : Except EvalError Value :=
  match tok.1 with
  | TokenType.NUMBER =>
    (match pyInt tok.2 with
     | Except.ok n => Except.ok (Value.intV n)
     | Except.error e => Except.error e)
  | TokenType.STRING_LITERAL => Except.ok (Value.strV (pyStrip tok.2))
  | TokenType.IDENTIFIER => Except.ok (dictGet symbols tok.2 (Value.intV 0))
  | _ => Except.error EvalError.valueError

/-- The `while i < len(tokens) and tokens[i][0] in ("PLUS", "MINUS")` loop
of `eval_expression`: fold the running value with the next term, strictly
left to right.  `tokens[i+1]` can be out of range (`IndexError`). -/
def evalExprLoop (symbols : List (String × Value)) (tokens : List Token) (i : Nat)
    (value : Value) : Except EvalError Value :=
  match hop : tokens[i]? with
  | none => Except.ok value
  | some op =>
    if op.1 = TokenType.PLUS ∨ op.1 = TokenType.MINUS then
      match tokens[i + 1]? with
      | none => Except.error EvalError.indexError
      | some rtok =>
        match get_value symbols rtok with
        | Except.error e => Except.error e
        | Except.ok right =>
          match (if op.1 = TokenType.PLUS then pyAdd value right else pySub value right) with
          | Except.error e => Except.error e
          | Except.ok v => evalExprLoop symbols tokens (i + 2) v
    else Except.ok value
termination_by tokens.length - i
decreasing_by
  have : i < tokens.length := by
    by_contra hge
    rw [List.getElem?_eq_none (by omega)] at hop
    cases hop
  omega

/-- `eval_expression(i)`: evaluate the first term at position `i`
(`IndexError` when `i` is out of range) and run the operator loop. -/
def eval_expression (symbols : List (String × Value)) (tokens : List Token) (i : Nat) :
    Except EvalError Value :=
  match tokens[i]? with
  | none => Except.error EvalError.indexError
  | some tok =>
    match get_value symbols tok with
    | Except.error e => Except.error e
    | Except.ok v => evalExprLoop symbols tokens (i + 1) v

/-- The `while tokens[i][0] != "SEMICOLON": i += 1` skip of the `printf`
branch, followed by the final `i += 1`; running past the end of the list
is an `IndexError`. -/
def skipToSemicolon (tokens : List Token) (i : Nat) : Except EvalError Nat :=
  match hcur : tokens[i]? with
  | none => Except.error EvalError.indexError
  | some tok =>
    if tok.1 = TokenType.SEMICOLON then Except.ok (i + 1)
    else skipToSemicolon tokens (i + 1)
termination_by tokens.length - i
decreasing_by
  have : i < tokens.length := by
    by_contra hge
    rw [List.getElem?_eq_none (by omega)] at hcur
    cases hcur
  omega

theorem skipToSemicolon_ok {tokens : List Token} {i j : Nat}
    (h : skipToSemicolon tokens i = Except.ok j) : i < j := by
  suffices H : ∀ n i j, tokens.length - i ≤ n → skipToSemicolon tokens i = Except.ok j → i < j from
    H (tokens.length - i) i j le_rfl h
  intro n
  induction n with
  | zero =>
    intro i j hn hh
    rw [skipToSemicolon] at hh
    split at hh
    · cases hh
    · rename_i tok hcur
      have hlt : i < tokens.length := by
        by_contra hge
        rw [List.getElem?_eq_none (by omega)] at hcur
        cases hcur
      omega
  | succ n ihn =>
    intro i j hn hh
    rw [skipToSemicolon] at hh
    split at hh
    · cases hh
    · rename_i tok hcur
      have hlt : i < tokens.length := by
        by_contra hge
        rw [List.getElem?_eq_none (by omega)] at hcur
        cases hcur
      split at hh
      · cases hh
        omega
      · have := ihn (i + 1) j (by omega) hh
        omega

/-- The `while i < len(tokens)` statement loop of `evaluate`.  The branches
mirror the source in order:
1. `ttype == "INT_KEYWORD"` — bind the next token's lexeme to 0 and skip 3
   tokens (this branch catches *every* INT_KEYWORD, initializer or not);
2. `ttype == "INT_KEYWORD" and tokens[i+2][0] == "EQUALS"` — the
   initializer branch of the source, unreachable because branch 1 already
   `continue`d on every INT_KEYWORD (kept here, behind the first test's
   negation, exactly as dead as in the source);
3. `ttype == "IDENTIFIER" and tokens[i+1][0] == "EQUALS"` — assignment
   (evaluating the condition itself raises IndexError when `i+1` is out of
   range);
4. `ttype == "IDENTIFIER" and tval == "printf"` — evaluate the first
   argument, append `str(value)` to the output, skip to the `;`;
5. otherwise `i += 1`. -/
def evalLoop (tokens : List Token) (i : Nat) (symbols : List (String × Value))
    (output : List String) : Except EvalError (List (String × Value) × List String) :=
  match hcur : tokens[i]? with
  | none => Except.ok (symbols, output)
  | some tok =>
    if tok.1 = TokenType.INT_KEYWORD then
      match tokens[i + 1]? with
      | none => Except.error EvalError.indexError
      | some t1 => evalLoop tokens (i + 3) (dictSet symbols t1.2 (Value.intV 0)) output
    else if tok.1 = TokenType.INT_KEYWORD ∧
        (tokens[i + 2]?).map (fun t => t.1) = some TokenType.EQUALS then
      match tokens[i + 1]? with
      | none => Except.error EvalError.indexError
      | some t1 =>
        match eval_expression symbols tokens (i + 3) with
        | Except.error e => Except.error e
        | Except.ok v => evalLoop tokens (i + 5) (dictSet symbols t1.2 v) output
    else if tok.1 = TokenType.IDENTIFIER then
      match tokens[i + 1]? with
      | none => Except.error EvalError.indexError
      | some t1 =>
        if t1.1 = TokenType.EQUALS then
          match eval_expression symbols tokens (i + 2) with
          | Except.error e => Except.error e
          | Except.ok v => evalLoop tokens (i + 4) (dictSet symbols tok.2 v) output
        else if tok.2 = "printf" then
          match eval_expression symbols tokens (i + 2) with
          | Except.error e => Except.error e
          | Except.ok v =>
            match hskip : skipToSemicolon tokens i with
            | Except.error e => Except.error e
            | Except.ok j => evalLoop tokens j symbols (output ++ [strOf v])
        else evalLoop tokens (i + 1) symbols output
    else evalLoop tokens (i + 1) symbols output
termination_by tokens.length - i
decreasing_by
  all_goals
    have hlt : i < tokens.length := by
      by_contra hge
      rw [List.getElem?_eq_none (by omega)] at hcur
      cases hcur
  · omega
  · omega
  · omega
  · have := skipToSemicolon_ok hskip
    omega
  · omega
  · omega

/-- The body of `evaluate` up to (but not including) the final join:
run the statement loop from index 0 with empty `symbols` and `output`. -/
def evalRun (tokens : List Token) : Except EvalError (List (String × Value) × List String) :=
  evalLoop tokens 0 [] []

/-- The interpreter `evaluate`: walk the token sequence and return
`"\n".join(output)`; a raised host exception is an `Except.error`. -/
def evaluate (tokens : List Token) : Except EvalError String :=
  match evalRun tokens with
  | Except.error e => Except.error e
  | Except.ok r => Except.ok (String.intercalate "\n" r.2)

theorem getElem?_some_lt {α : Type} {l : List α} {i : Nat} {a : α}
    (h : l[i]? = some a) : i < l.length := by
  by_contra hge
  rw [List.getElem?_eq_none (by omega)] at h
  cases h

theorem dictSet_mem {m : List (String × Value)} {k a : String} {v b : Value}
    (h : (a, b) ∈ dictSet m k v) : (∃ w, (a, w) ∈ m) ∨ a = k := by
  induction m with
  | nil =>
    rw [dictSet] at h
    rcases List.mem_singleton.mp h with h1
    exact Or.inr (congrArg Prod.fst h1)
  | cons hd tl ih =>
    rw [dictSet] at h
    split at h
    · rcases List.mem_cons.mp h with h1 | h1
      · rename_i hk
        rcases h1 with h1
        exact Or.inr ((congrArg Prod.fst h1).trans hk)
      · exact Or.inl ⟨b, List.mem_cons_of_mem hd (by exact h1)⟩
    · rcases List.mem_cons.mp h with h1 | h1
      · exact Or.inl ⟨b, by rw [h1]; exact List.mem_cons_self hd tl⟩
      · rcases ih h1 with ⟨w, hw⟩ | he
        · exact Or.inl ⟨w, List.mem_cons_of_mem hd hw⟩
        · exact Or.inr he

/-- A key the statement loop of `evaluate` can create: the lexeme of a
token standing right after an `int` keyword token, or the lexeme of an
identifier token standing right before an `=` token. -/
def introducedKey (tokens : List Token) (k : String) : Prop :=
  (∃ j t0 t1, tokens[j]? = some t0 ∧ t0.1 = TokenType.INT_KEYWORD ∧
    tokens[j + 1]? = some t1 ∧ t1.2 = k) ∨
  (∃ j t1, tokens[j]? = some (TokenType.IDENTIFIER, k) ∧ tokens[j + 1]? = some t1 ∧
    t1.1 = TokenType.EQUALS)

theorem evalLoop_keys (tokens : List Token) :
    ∀ (n i : Nat) (symbols : List (String × Value)) (output : List String)
      (sym : List (String × Value)) (out : List String),
      tokens.length - i ≤ n →
      evalLoop tokens i symbols output = Except.ok (sym, out) →
      ∀ kv ∈ sym, (∃ w, (kv.1, w) ∈ symbols) ∨ introducedKey tokens kv.1 := by
  intro n
  induction n with
  | zero =>
    intro i symbols output sym out hn h kv hkv
    rw [evalLoop] at h
    split at h
    · cases h
      exact Or.inl ⟨kv.2, by rw [Prod.mk.eta]; exact hkv⟩
    · rename_i tok hcur
      have := getElem?_some_lt hcur
      omega
  | succ n ihn =>
    intro i symbols output sym out hn h kv hkv
    rw [evalLoop] at h
    split at h
    · cases h
      exact Or.inl ⟨kv.2, by rw [Prod.mk.eta]; exact hkv⟩
    · rename_i tok hcur
      have hilt := getElem?_some_lt hcur
      split at h
      · -- branch 1: bare INT_KEYWORD declaration shape
        rename_i hint
        split at h
        · cases h
        · rename_i t1 ht1
          rcases ihn (i + 3) _ output sym out (by omega) h kv hkv with ⟨w, hw⟩ | hintro
          · rcases dictSet_mem hw with hw2 | heq
            · exact Or.inl hw2
            · exact Or.inr (Or.inl ⟨i, tok, t1, hcur, hint, ht1, heq.symm⟩)
          · exact Or.inr hintro
      · split at h
        · -- branch 2 (dead in the source): contradicts the negation of branch 1
          rename_i hnint hint2
          exact absurd hint2.1 hnint
        · split at h
          · -- identifier-led statements
            rename_i hnint hnint2 hid
            split at h
            · cases h
            · rename_i t1 ht1
              split at h
              · -- assignment
                rename_i heqs
                split at h
                · cases h
                · rename_i v hv
                  rcases ihn (i + 4) _ output sym out (by omega) h kv hkv with ⟨w, hw⟩ | hintro
                  · rcases dictSet_mem hw with hw2 | heq
                    · exact Or.inl hw2
                    · refine Or.inr (Or.inr ⟨i, t1, ?_, ht1, heqs⟩)
                      have htok : tok = (TokenType.IDENTIFIER, kv.1) := by
                        cases tok
                        simp_all
                      rw [hcur, htok]
                  · exact Or.inr hintro
              · split at h
                · -- printf call
                  split at h
                  · cases h
                  · rename_i v hv
                    split at h
                    · cases h
                    · rename_i j hskip
                      have hij := skipToSemicolon_ok hskip
                      exact ihn j symbols _ sym out (by omega) h kv hkv
                · -- stray identifier: fall through
                  exact ihn (i + 1) symbols output sym out (by omega) h kv hkv
          · -- any other token: fall through
            exact ihn (i + 1) symbols output sym out (by omega) h kv hkv

theorem scanAux_no_ws_unknown :
    ∀ (n : Nat) (prevWord : Bool) (cs : List Char), cs.length ≤ n →
      ∀ t ∈ (scanAux prevWord cs).1,
        t.1 ≠ TokenType.WHITESPACE ∧ t.1 ≠ TokenType.UNKNOWN := by
  intro n
  induction n with
  | zero =>
    intro prevW cs hn t ht
    cases cs with
    | nil =>
      rw [scanAux] at ht
      simp at ht
    | cons c rest => simp at hn
  | succ n ihn =>
    intro prevW cs hn t ht
    cases cs with
    | nil =>
      rw [scanAux] at ht
      simp at ht
    | cons c rest =>
      rw [scanAux] at ht
      simp only [List.length_cons] at hn
      split at ht
      · exact ihn _ _ (by simp only [List.length_drop, List.length_cons]; omega) t ht
      · rename_i hw
        split at ht
        · dsimp only at ht
          exact ihn _ _ (by simp only [List.length_drop, List.length_cons]; omega) t ht
        · rename_i hu
          dsimp only at ht
          rcases List.mem_cons.mp ht with ht2 | ht2
          · rw [ht2]
            exact ⟨hw, hu⟩
          · exact ihn _ _ (by simp only [List.length_drop, List.length_cons]; omega) t ht2

theorem cons_take_ne {a b : Char} {l tgt : List Char} (hab : a ≠ b) (n : Nat)
    (h : (a :: l).take (n + 1) = b :: tgt) : False := by
  rw [List.take_succ_cons] at h
  injection h with h1 h2
  exact hab h1

theorem takeWhile_no_quote (v rest : List Char) (hv : ∀ c ∈ v, c ≠ '"') :
    (v ++ '"' :: rest).takeWhile (fun c => !(c == '"')) = v := by
  induction v with
  | nil => simp
  | cons a tl ih =>
    have ha : (a == '"') = false := by
      simpa using hv a (List.mem_cons_self a tl)
    simp [List.takeWhile_cons, ha, ih (fun c hc => hv c (List.mem_cons_of_mem a hc))]

theorem matchAt_quote (prevWord : Bool) (v rest : List Char)
    (hv : ∀ c ∈ v, c ≠ '"') :
    matchAt prevWord ('"' :: (v ++ '"' :: rest)) = (TokenType.STRING_LITERAL, 2 + v.length) := by
  unfold matchAt
  rw [if_neg, if_neg, if_neg, if_pos]
  · rw [show ('"' :: (v ++ '"' :: rest)).tail = v ++ '"' :: rest from rfl,
      takeWhile_no_quote v rest hv]
  · constructor
    · rfl
    · rw [show ('"' :: (v ++ '"' :: rest)).tail = v ++ '"' :: rest from rfl,
        takeWhile_no_quote v rest hv]
      simp [List.length_append]
  · rintro ⟨-, h3⟩
    rw [show headIs isIdentStart ('"' :: (v ++ '"' :: rest)) = false from rfl] at h3
    cases h3
  · rintro ⟨-, h2, -⟩
    exact cons_take_ne (by decide) 5 h2
  · rintro ⟨-, h2, -⟩
    exact cons_take_ne (by decide) 2 h2

theorem scanAux_string_step (prevWord : Bool) (v rest : List Char)
    (hv : ∀ c ∈ v, c ≠ '"') :
    scanAux prevWord ('"' :: (v ++ '"' :: rest)) =
      ((TokenType.STRING_LITERAL, String.mk ('"' :: (v ++ ['"']))) :: (scanAux false rest).1,
       (scanAux false rest).2) := by
  rw [scanAux, matchAt_quote prevWord v rest hv]
  dsimp only
  rw [if_neg (by decide), if_neg (by decide)]
  rw [show (1 ⊔ (2 + v.length)) = v.length + 1 + 1 from by omega]
  rw [List.take_succ_cons, List.drop_succ_cons]
  rw [List.take_append 1, List.drop_append 1]
  rw [show List.take 1 ('"' :: rest) = ['"'] from rfl, show List.drop 1 ('"' :: rest) = rest from rfl]
  rw [← List.cons_append, List.getLastD_concat]
  rw [show isWordChar '"' = false from rfl]

theorem syntax_analyzer_true_iff (tokens : List Token) :
    syntax_analyzer tokens = true ↔
      ∃ p', parseProgramCore (SimpleParser.mk tokens 0) = Except.ok p' ∧
        p'.current_token_index = tokens.length := by
  cases hc : parseProgramCore (SimpleParser.mk tokens 0) with
  | error e =>
    constructor
    · intro h
      unfold syntax_analyzer parseProgram at h
      rw [hc] at h
      simp at h
    · rintro ⟨p', hp', -⟩
      cases hp'
  | ok g =>
    obtain ⟨hgt, hgle⟩ := parseProgramCore_ok hc
    have hgt2 : g.tokens = tokens := hgt
    constructor
    · intro h
      unfold syntax_analyzer parseProgram at h
      rw [hc] at h
      dsimp only at h
      split at h
      · rename_i a hifok
        split at hifok
        · rename_i hnone
          have hge := cur_none_iff.mp hnone
          rw [hgt2] at hge hgle
          exact ⟨g, rfl, by omega⟩
        · cases hifok
      · cases h
    · rintro ⟨p', hp', hlen⟩
      cases hp'
      unfold syntax_analyzer parseProgram
      rw [hc]
      dsimp only
      rw [if_pos (cur_none_iff.mpr (by rw [hgt2]; omega))]

/-- Sources of the concrete programs the specification discusses, and
their token sequences. -/
def srcDecl : String := "int main() \x7b int x = 10; int y; y = x + 5; return 0; \x7d"

def srcReturn : String := "int main() \x7b return 0; \x7d"

def srcReturnBad : String := "int main() \x7b return; 0 \x7d"

def srcMalformed : String := "int main( \x7b return 0; \x7d"

def srcPrintf : String := "int main() \x7b printf(40 + 2); return 0; \x7d"

def srcMixed : String := "int main() \x7b printf(\"a\" + 1); return 0; \x7d"

def toksDecl : List Token := (lexical_analyzer srcDecl).1

def toksReturn : List Token := (lexical_analyzer srcReturn).1

def toksReturnBad : List Token := (lexical_analyzer srcReturnBad).1

def toksMalformed : List Token := (lexical_analyzer srcMalformed).1

def toksPrintf : List Token := (lexical_analyzer srcPrintf).1

def toksMixed : List Token := (lexical_analyzer srcMixed).1

/-- Rendering of claim C7's "character matching one of the defined
patterns", read character-wise: the one-character string of `c` is fully
matched by some non-catch-all pattern of `TOKEN_TYPES` (a letter or `_`
by IDENTIFIER, a digit by NUMBER, the operator and punctuation characters
by their single-character patterns, whitespace by WHITESPACE; no single
character is matched by the keyword or string-literal patterns). -/
def coveredChar (c : Char) : Bool :=
  isIdentStart c || c.isDigit || c == '+' || c == '-' || c == '=' || c == '(' ||
  c == ')' || c == '\x7b' || c == '\x7d' || c == ';' || c == ',' || isSpaceChar c


unseal scanAux stmtLoop exprLoop argsLoop evalLoop evalExprLoop skipToSemicolon in
/-- C1: the claim says a declaration with an initializer binds the
identifier to the evaluated initializer, so that for the tokens of
`int main() { int x = 10; int y; y = x + 5; return 0; }` the symbol table
ends with x = 10 and y = 15.  The code does not do this: the bare
INT_KEYWORD branch of `evaluate` catches every declaration and binds 0,
the initializer branch below it is unreachable, so the run ends with
x = 0 and y = 5 (and the header's `main` bound to 0).  This theorem
evaluates the code at the claim's input: validation succeeds and the
final symbol table is main = 0, x = 0, y = 5 with no output. -/
theorem claim_C1 :
    syntax_analyzer toksDecl = true ∧
    evalRun toksDecl =
      Except.ok ([("main", Value.intV 0), ("x", Value.intV 0), ("y", Value.intV 5)], []) :=
  ⟨rfl, rfl⟩

/-- C2 (amended): every key in the final symbol table of a completed
`evaluate` run is the lexeme of a token standing right after an `int`
keyword token or of an identifier token standing right before `=`.  (As
claimed this fails: the program header `int main ( )` matches the
declaration shape, so the function name is bound too — see the
counterexample.) -/
theorem claim_C2 (tokens : List Token) (sym : List (String × Value)) (out : List String)
    (h : evalRun tokens = Except.ok (sym, out)) :
    ∀ kv ∈ sym, introducedKey tokens kv.1 := by
  intro kv hkv
  rcases evalLoop_keys tokens tokens.length 0 [] [] sym out (by omega) h kv hkv with
    ⟨w, hw⟩ | hi
  · cases hw
  · exact hi

unseal scanAux stmtLoop exprLoop argsLoop evalLoop evalExprLoop skipToSemicolon in
/-- C2 counterexample: `int main() { return 0; }` contains no variable
declaration statement and no assignment statement, yet after `evaluate`
the symbol table is non-empty: the header bound `main` to 0, refuting
"no other name (for example the function name) is ever bound". -/
theorem claim_C2_counterexample :
    syntax_analyzer toksReturn = true ∧
    evalRun toksReturn = Except.ok ([("main", Value.intV 0)], []) :=
  ⟨rfl, rfl⟩

unseal scanAux evalLoop evalExprLoop skipToSemicolon in
/-- C2 witness: the general theorem applied to the tokens of
`int main() { return 0; }` shows the one bound key `main` is introduced
by the declaration-shaped header `int main`. -/
theorem claim_C2_witness :
    evalRun toksReturn = Except.ok ([("main", Value.intV 0)], []) ∧
    introducedKey toksReturn "main" :=
  ⟨rfl, claim_C2 toksReturn [("main", Value.intV 0)] [] rfl ("main", Value.intV 0)
    (List.mem_singleton_self _)⟩

/-- C3 (amended): a completed `evaluate` run returns exactly the buffered
lines joined by newlines, and an empty buffer yields the *empty string* —
not a distinguishable "no output" value; the `(No output)` marker is
produced by the GUI shell, outside `evaluate`. -/
theorem claim_C3 (tokens : List Token) (sym : List (String × Value)) (out : List String)
    (h : evalRun tokens = Except.ok (sym, out)) :
    evaluate tokens = Except.ok (String.intercalate "\n" out) ∧
    (out = [] → evaluate tokens = Except.ok "") := by
  constructor
  · unfold evaluate
    rw [h]
  · intro hout
    unfold evaluate
    rw [h, hout]
    rfl

unseal scanAux stmtLoop exprLoop argsLoop evalLoop evalExprLoop skipToSemicolon in
/-- C3 counterexample: the validated program `int main() { return 0; }`
executes no `printf`, and `evaluate` returns precisely the empty string,
which is not distinguishable from `""`. -/
theorem claim_C3_counterexample :
    syntax_analyzer toksReturn = true ∧ evaluate toksReturn = Except.ok "" :=
  ⟨rfl, rfl⟩

unseal scanAux evalLoop evalExprLoop skipToSemicolon in
/-- C3 witness: the amended theorem applied to the printf program, whose
run buffers the single line `42`. -/
theorem claim_C3_witness :
    evalRun toksPrintf = Except.ok ([("main", Value.intV 0)], ["42"]) ∧
    evaluate toksPrintf = Except.ok (String.intercalate "\n" ["42"]) :=
  ⟨rfl, (claim_C3 toksPrintf [("main", Value.intV 0)] ["42"] rfl).1⟩

unseal scanAux stmtLoop exprLoop argsLoop evalLoop evalExprLoop skipToSemicolon in
/-- C4: tokenizing `int main() { printf(40 + 2); return 0; }` yields no
lexical error, the sequence validates, and `evaluate` returns exactly the
output text `42`. -/
theorem claim_C4 :
    (lexical_analyzer srcPrintf).2 = false ∧ syntax_analyzer toksPrintf = true ∧
    evaluate toksPrintf = Except.ok "42" :=
  ⟨rfl, rfl, rfl⟩

unseal scanAux stmtLoop exprLoop argsLoop in
/-- C5: `validate` returns true exactly when the whole token sequence
matches the `int IDENT ( ) { statement* }` grammar with end-of-input
immediately after the closing brace — i.e. when the recursive descent
succeeds with its cursor at the very end of the sequence; concretely it
accepts the tokens of `int main() { return 0; }` and rejects those of
`int main() { return; 0 }`. -/
theorem claim_C5 :
    (∀ tokens : List Token, syntax_analyzer tokens = true ↔
      ∃ p', parseProgramCore (SimpleParser.mk tokens 0) = Except.ok p' ∧
        p'.current_token_index = tokens.length) ∧
    syntax_analyzer toksReturn = true ∧ syntax_analyzer toksReturnBad = false :=
  ⟨syntax_analyzer_true_iff, rfl, rfl⟩

unseal scanAux stmtLoop exprLoop argsLoop in
/-- C5 witness: the iff applied to the tokens of
`int main() { return 0; }`, with the full parse ending at index 9 = the
length of the sequence. -/
theorem claim_C5_witness : syntax_analyzer toksReturn = true :=
  (claim_C5.1 toksReturn).mpr ⟨SimpleParser.mk toksReturn 9, rfl, rfl⟩

unseal scanAux in
/-- C6: every `SyntaxError` raised inside the recursive descent is caught
by `syntax_analyzer` and turned into the return value false — the parse
of any token sequence either succeeds or ends in `Except.error`, and the
error case always yields false; concretely the malformed
`int main( { return 0; }` gives false, not an exception. -/
theorem claim_C6 :
    (∀ (tokens : List Token) (e : String),
      parseProgram tokens = Except.error e → syntax_analyzer tokens = false) ∧
    syntax_analyzer toksMalformed = false :=
  ⟨fun tokens e h => by unfold syntax_analyzer; rw [h], rfl⟩

unseal scanAux in
/-- C6 witness: the catch applied to the malformed program, whose parse
fails at the missing RPAREN with the `expect` diagnostic. -/
theorem claim_C6_witness : syntax_analyzer toksMalformed = false :=
  claim_C6.1 toksMalformed "Expected token type mismatch" rfl

unseal scanAux in
/-- C7 (amended): `tokenize` never appends a WHITESPACE or catch-all
match to the token sequence, and it scans past a bad character, still
tokenizing the surrounding text (concretely `int @ x;` yields the tokens
`int`, `x`, `;` with the error flag set).  The claimed equivalence with
"contains a character matching none of the defined patterns" fails — see
the counterexample. -/
theorem claim_C7 :
    (∀ (code : String) (t : Token), t ∈ (lexical_analyzer code).1 →
      t.1 ≠ TokenType.WHITESPACE ∧ t.1 ≠ TokenType.UNKNOWN) ∧
    lexical_analyzer "int @ x;" =
      ([(TokenType.INT_KEYWORD, "int"), (TokenType.IDENTIFIER, "x"),
        (TokenType.SEMICOLON, ";")], true) :=
  ⟨fun code t ht => scanAux_no_ws_unknown code.data.length false code.data (le_refl _) t ht,
    rfl⟩

unseal scanAux in
/-- C7 counterexample: in `"9a"` both characters match defined patterns
(`9` matches NUMBER, `a` matches IDENTIFIER), yet `tokenize` reports a
lexical error (and returns no tokens at all), because the `\b` word
boundaries make both positions fall through to the catch-all; so
`has_lexical_error = true` is not equivalent to the presence of a
character matching none of the defined patterns. -/
theorem claim_C7_counterexample :
    coveredChar '9' = true ∧ coveredChar 'a' = true ∧
    lexical_analyzer "9a" = ([], true) :=
  ⟨rfl, rfl, rfl⟩

unseal scanAux in
/-- C7 witness: the no-WHITESPACE/UNKNOWN clause applied to the `int`
token produced from `int @ x;`. -/
theorem claim_C7_witness :
    ((TokenType.INT_KEYWORD, "int") : Token) ∈ (lexical_analyzer "int @ x;").1 ∧
    ((TokenType.INT_KEYWORD, "int") : Token).1 ≠ TokenType.WHITESPACE ∧
    ((TokenType.INT_KEYWORD, "int") : Token).1 ≠ TokenType.UNKNOWN :=
  ⟨by decide, claim_C7.1 "int @ x;" (TokenType.INT_KEYWORD, "int") (by decide)⟩

/-- C8: the tokenizer and the validator are pure: equal inputs give equal
results on every call, and a successful run of the recursive descent
returns a parser whose token list is exactly the input list — the
validator only moves its cursor and never mutates a token. -/
theorem claim_C8 :
    (∀ code : String, lexical_analyzer code = lexical_analyzer code) ∧
    (∀ tokens : List Token, syntax_analyzer tokens = syntax_analyzer tokens) ∧
    (∀ p p' : SimpleParser, parseProgramCore p = Except.ok p' → p'.tokens = p.tokens) :=
  ⟨fun _ => rfl, fun _ => rfl, fun _ _ h => (parseProgramCore_ok h).1⟩

unseal scanAux stmtLoop exprLoop argsLoop in
/-- C8 witness: the no-mutation clause applied to the full parse of
`int main() { return 0; }`, which ends at cursor 9 with the token list
unchanged. -/
theorem claim_C8_witness :
    parseProgramCore (SimpleParser.mk toksReturn 0) = Except.ok (SimpleParser.mk toksReturn 9) ∧
    (SimpleParser.mk toksReturn 9).tokens = toksReturn :=
  ⟨rfl, claim_C8.2.2 (SimpleParser.mk toksReturn 0) (SimpleParser.mk toksReturn 9) rfl⟩

unseal scanAux in
/-- C9: whenever the scanner stands at a double quote that is closed
later, the whole quoted text (quotes included) is emitted as one single
STRING_LITERAL token and scanning resumes after the closing quote, so the
characters between the quotes are never re-scanned as keyword or
identifier tokens; concretely `"int 5"` is one string-literal token even
though it contains the keyword `int` and a number. -/
theorem claim_C9 :
    (∀ (prevWord : Bool) (v rest : List Char), (∀ c ∈ v, c ≠ '"') →
      scanAux prevWord ('"' :: (v ++ '"' :: rest)) =
        ((TokenType.STRING_LITERAL, String.mk ('"' :: (v ++ ['"']))) :: (scanAux false rest).1,
         (scanAux false rest).2)) ∧
    lexical_analyzer "\"int 5\"" = ([(TokenType.STRING_LITERAL, "\"int 5\"")], false) :=
  ⟨scanAux_string_step, rfl⟩

unseal scanAux in
/-- C9 witness: the scan step applied to the literal `"a"` at the start
of the input. -/
theorem claim_C9_witness :
    (∀ c ∈ (['a'] : List Char), c ≠ '"') ∧
    scanAux false ('"' :: (['a'] ++ '"' :: [])) =
      ((TokenType.STRING_LITERAL, String.mk ('"' :: (['a'] ++ ['"']))) :: (scanAux false []).1,
       (scanAux false []).2) :=
  ⟨by decide, claim_C9.1 false ['a'] [] (by decide)⟩

unseal scanAux stmtLoop exprLoop argsLoop evalLoop evalExprLoop skipToSemicolon in
/-- C10: the tokens of `int main() { printf("a" + 1); return 0; }` pass
validation (a term may be a string literal), but evaluating the printf
argument applies `+` to the string `a` and the integer 1, which raises an
uncaught host `TypeError`: `evaluate` produces no result. -/
theorem claim_C10 :
    syntax_analyzer toksMixed = true ∧
    evaluate toksMixed = Except.error EvalError.typeError :=
  ⟨rfl, rfl⟩

end MiniC
